import Mathlib

/-!
Verification of the type-checked curry engine of the sanctuary library
(src/index.js). The engine (`curry`, `def`, `_is`, `arity`, the `format`
helpers and the `and`/`toBoolean` dispatchers) is shallowly embedded:
JavaScript values are the inductive `JVal`, argument lists hold either the
`R.__` placeholder or a concrete value, and every code path of `curry`'s
application body (src/index.js lines 146-202) is translated branch by
branch, including the errors it throws.
-/

namespace Sanctuary

/-- The three type-variable singletons `a`, `b`, `c` (src/index.js 129-131).
Each is one object; sharing a variable means holding the same object, so
identity of the constraint instance coincides with equality of this tag. -/
inductive TVarId where
  | a
  | b
  | c
  deriving DecidableEq, Repr

/-- Constructor functions that occur as concrete (nullary) type constraints
or as type representatives: JavaScript built-ins plus the library's own
Maybe/Either family and the two pseudo-type constructors. -/
inductive Ctor where
  | cNumber
  | cString
  | cBoolean
  | cArray
  | cFunction
  | cObject
  | cMaybe
  | cJust
  | cNothing
  | cEither
  | cLeft
  | cRight
  | cAccessible
  | cTypeRep
  deriving DecidableEq, Repr

/-- The value of a `type` property used for tagged algebraic values:
`Maybe.prototype.type = Maybe` (line 511) and
`Either.prototype.type = Either` (line 854). Other values have no such
property (reading it yields `undefined`). -/
inductive TypeTag where
  | maybeT
  | eitherT
  deriving DecidableEq, Repr

/-- JavaScript values, restricted to the shapes the engine inspects:
primitives, arrays, plain objects, opaque functions, constructor
functions, and the library's Maybe/Either instances. -/
inductive JVal where
  | vnull
  | vundefined
  | vbool (b : Bool)
  | vnum (n : Int)
  | vstr (s : String)
  | varr (xs : List JVal)
  | vfn (name : String)
  | vctor (C : Ctor)
  | vobj (id : Nat)
  | just (x : JVal)
  | nothing
  | left (x : JVal)
  | right (x : JVal)
  deriving Repr

/-- One entry of an argument list / pending-slot list: either the Ramda
placeholder `R.__` (recognised by `placeholder`, src/index.js 106-109) or a
concrete value. -/
inductive Arg where
  | ph
  | val (v : JVal)
  deriving Repr

/-- One parameter's requirement, i.e. the JavaScript value stored in the
`types` array of a `def` call: a concrete constructor, the `Accessible`
pseudo-type, the `TypeRep` pseudo-type, or one of the type-variable
singletons `a`/`b`/`c`. -/
inductive TypeConstraint where
  | ctor (C : Ctor)
  | accessible
  | typeRep
  | tvar (t : TVarId)
  deriving DecidableEq, Repr

/-- `x == null`: true exactly for the two nullish sentinels. -/
def isNullish : JVal → Bool
  | .vnull => true
  | .vundefined => true
  | _ => false

/-- `R.type`: the runtime classification string of a value. -/
def rtype : JVal → String
  | .vnull => "Null"
  | .vundefined => "Undefined"
  | .vbool _ => "Boolean"
  | .vnum _ => "Number"
  | .vstr _ => "String"
  | .varr _ => "Array"
  | .vfn _ => "Function"
  | .vctor _ => "Function"
  | .vobj _ => "Object"
  | .just _ => "Object"
  | .nothing => "Object"
  | .left _ => "Object"
  | .right _ => "Object"

/-- The value of `x.type` for a non-nullish `x`: the Maybe constructor on
Maybe instances, the Either constructor on Either instances, `undefined`
(`none`) elsewhere. -/
def typeTag : JVal → Option TypeTag
  | .just _ => some .maybeT
  | .nothing => some .maybeT
  | .left _ => some .eitherT
  | .right _ => some .eitherT
  | _ => none

/-- Errors the engine can throw, one constructor per distinct throw site /
runtime failure shape. -/
inductive JSError where
  | tvarMismatch (name : String) (i j : Nat) (v1 v2 : JVal)
  | accessibleNull (i : Nat) (name : String)
  | typeMismatch (name : String) (t : Option TypeConstraint) (i : Option Nat) (v : JVal)
  | methodMissing (v : JVal) (article meth : String)
  | instanceOfBadRHS
  | propertyOfNullish (prop : String)
  | notAFunction
  deriving Repr

/-- Reading `x.type` (curry's type-variable scan, line 172): throws a
TypeError on the nullish sentinels, otherwise yields the property value. -/
def getTypeProp (x : JVal) : Except JSError (Option TypeTag) :=
  if isNullish x then .error (.propertyOfNullish "type") else .ok (typeTag x)

/-- The prototype chain of `Object(x)` (the value after primitive boxing),
as the list of constructors whose `prototype` object appears in it.
`extend(Nothing, Maybe)` etc. (src/index.js 208-215) put `Maybe.prototype`
behind `Nothing.prototype`/`Just.prototype`, and every chain ends at
`Object.prototype`. -/
def protoChain : JVal → List Ctor
  | .vnull => []
  | .vundefined => []
  | .vbool _ => [.cBoolean, .cObject]
  | .vnum _ => [.cNumber, .cObject]
  | .vstr _ => [.cString, .cObject]
  | .varr _ => [.cArray, .cObject]
  | .vfn _ => [.cFunction, .cObject]
  | .vctor _ => [.cFunction, .cObject]
  | .vobj _ => [.cObject]
  | .just _ => [.cJust, .cMaybe, .cObject]
  | .nothing => [.cNothing, .cMaybe, .cObject]
  | .left _ => [.cLeft, .cEither, .cObject]
  | .right _ => [.cRight, .cEither, .cObject]

/-- `Object(x) instanceof C`. -/
def jsInstanceOfBoxed (x : JVal) (C : Ctor) : Bool :=
  (protoChain x).contains C

/-- `_is` (src/index.js 133-135):
`x != null && (type === Accessible || Object(x) instanceof type)`. -/
def _is (C : Ctor) (x : JVal) : Bool :=
  !(isNullish x) && ((C == .cAccessible) || jsInstanceOfBoxed x C)

/-! ### Message formatters (src/index.js 111-125) -/

/-- The lookup table behind the `{ord}` formatter:
`R.nth(_, ['first', 'second', 'third'])`. -/
def ordWords : List String := ["first", "second", "third"]

/-- The `{ord}` formatter applied to a 0-based index, as interpolated by
`format`: `R.nth` yields `undefined` past index 2, and `String.replace`
renders the `undefined` callback result as the text "undefined". -/
def fmtOrd (i : Nat) : String := (ordWords[i]?).getD "undefined"

/-- The `{quote}` formatter: wraps in typographic quotes. -/
def quoteS (s : String) : String := "‘" ++ s ++ "’"

/-- The `{type}` formatter applied to a constructor function: the name
captured from `String(fn)` by `/^function (\w*)/`. -/
def ctorName : Ctor → String
  | .cNumber => "Number"
  | .cString => "String"
  | .cBoolean => "Boolean"
  | .cArray => "Array"
  | .cFunction => "Function"
  | .cObject => "Object"
  | .cMaybe => "Maybe"
  | .cJust => "Just"
  | .cNothing => "Nothing"
  | .cEither => "Either"
  | .cLeft => "Left"
  | .cRight => "Right"
  | .cAccessible => "Accessible"
  | .cTypeRep => "TypeRep"

/-- The `{type}` formatter on the raw constraint value handed to the
`format` call at line 188-193: a constructor renders as its function name,
`TypeRep` as "TypeRep", and the `undefined` obtained from indexing `types`
out of range renders as "undefined". -/
def fmtType : Option TypeConstraint → String
  | some (.ctor C) => ctorName C
  | some .typeRep => "TypeRep"
  | some .accessible => "Accessible"
  | some (.tvar _) => "undefined"
  | none => "undefined"

/-- The `{ord}` formatter on a possibly-`undefined` index (over-application
makes `paramIndex` `undefined`, and `R.nth(undefined, ...)` is
`undefined`). -/
def fmtOrdOpt : Option Nat → String
  | some i => fmtOrd i
  | none => "undefined"

mutual

/-- The `{repr}` formatter, `R.toString`, on the embedded values. -/
def jshow : JVal → String
  | .vnull => "null"
  | .vundefined => "undefined"
  | .vbool b => cond b "true" "false"
  | .vnum n => toString n
  | .vstr s => "\"" ++ s ++ "\""
  | .varr xs => "[" ++ jshowList xs ++ "]"
  | .vfn n => "function " ++ n
  | .vctor C => "function " ++ ctorName C
  | .vobj _ => "\x7b\x7d"
  | .just x => "Just(" ++ jshow x ++ ")"
  | .nothing => "Nothing()"
  | .left x => "Left(" ++ jshow x ++ ")"
  | .right x => "Right(" ++ jshow x ++ ")"

/-- Comma-separated rendering of array elements. -/
def jshowList : List JVal → String
  | [] => ""
  | [x] => jshow x
  | x :: y :: rest => jshow x ++ ", " ++ jshowList (y :: rest)

end

/-- The full text of each thrown error, assembled exactly as the `format`
templates at the throw sites do (src/index.js 173-178, 183-186, 189-193,
977). -/
def renderError : JSError → String
  | .tvarMismatch name i j v1 v2 =>
      quoteS name ++ " requires its " ++ fmtOrd i ++ " and " ++ fmtOrd j ++
      " arguments to be of the same type; " ++ jshow v1 ++ " and " ++
      jshow v2 ++ " are not"
  | .accessibleNull i name =>
      "The " ++ fmtOrd i ++ " argument to " ++ quoteS name ++
      " cannot be null or undefined"
  | .typeMismatch name t i v =>
      quoteS name ++ " requires a value of type " ++ fmtType t ++
      " as its " ++ fmtOrdOpt i ++ " argument; received " ++ jshow v
  | .methodMissing v article meth =>
      jshow v ++ " does not have " ++ article ++ " " ++ quoteS meth ++
      " method"
  | .instanceOfBadRHS =>
      "Right-hand side of instanceof is not callable"
  | .propertyOfNullish prop =>
      "Cannot read property " ++ prop ++ " of null or undefined"
  | .notAFunction =>
      "value is not a function"

/-! ### The curry engine (src/index.js 137-206) -/

/-- A partially applied function: the state captured by a `curry` closure —
its `name`, `types` and `_values` (the pending-slot snapshot). The wrapped
implementation is kept outside the structure and passed to `applyS`, so
that states can be compared for equality. -/
structure CurriedFn where
  name : String
  types : List TypeConstraint
  pending : List Arg
  deriving Repr

/-- `placeholder` (src/index.js 106-109) on an argument-list entry. -/
def isPlaceholder : Arg → Bool
  | .ph => true
  | .val _ => false

/-- `R.filter(placeholder, _values).length`: the number of unfilled slots —
the arity reported by the wrapper that `curry` returns. -/
def countPh (values : List Arg) : Nat := (values.filter isPlaceholder).length

/-- The loop at src/index.js 154-159 collecting `paramIndexes`, starting
from index `k`. -/
def unfilledIndexesAux : Nat → List Arg → List Nat
  | _, [] => []
  | k, .ph :: rest => k :: unfilledIndexesAux (k + 1) rest
  | k, .val _ :: rest => unfilledIndexesAux (k + 1) rest

/-- `paramIndexes`: the indexes of the currently unfilled slots, in
left-to-right order. -/
def unfilledIndexes (values : List Arg) : List Nat := unfilledIndexesAux 0 values

/-- `R.reject(placeholder, values)`: the concrete values in slot order. -/
def concreteVals (values : List Arg) : List JVal :=
  values.filterMap fun a => match a with
    | .ph => none
    | .val v => some v

/-- The error thrown by the type-variable scan (src/index.js 173-178): the
argument pair is ordered so the lower slot index is listed first
(`paramIndex > idx ? [name, idx, paramIndex, val, arg]
               : [name, paramIndex, idx, arg, val]`). -/
def tvarError (name : String) (paramIndex idx : Nat) (sibling v : JVal) : JSError :=
  if idx < paramIndex then .tvarMismatch name idx paramIndex sibling v
  else .tvarMismatch name paramIndex idx v sibling

/-- The sibling scan for a type-variable constraint (src/index.js 169-180):
walk every slot from index `k`; a slot whose constraint is the same
type-variable object and whose value `w` is concrete must satisfy
`R.type(w) === R.type(v) && w.type === v.type`; reading `.type` throws on
nullish values, and any observed mismatch throws the
same-type error. -/
def checkSiblings (name : String) (types : List TypeConstraint) (t : TVarId)
    (paramIndex : Nat) (v : JVal) : Nat → List Arg → Except JSError Unit
  | _, [] => .ok ()
  | k, w :: rest =>
    if types[k]? = some (.tvar t) then
      match w with
      | .ph => checkSiblings name types t paramIndex v (k + 1) rest
      | .val wv =>
        if rtype wv = rtype v then
          match getTypeProp wv, getTypeProp v with
          | .ok tw, .ok tv =>
            if tw = tv then checkSiblings name types t paramIndex v (k + 1) rest
            else .error (tvarError name paramIndex k wv v)
          | .error e, _ => .error e
          | .ok _, .error e => .error e
        else .error (tvarError name paramIndex k wv v)
    else checkSiblings name types t paramIndex v (k + 1) rest

/-- Validation of one supplied concrete argument `v` against the constraint
at its target slot (src/index.js 161-196). `iOpt` is `paramIndexes[argIndex]`
(`none` models the `undefined` obtained when more concrete arguments are
supplied than slots remain). When `type` is `undefined` — either because
`paramIndex` is `undefined` or because `types` is shorter than the slot
list — control reaches `_is(undefined, arg)`, which returns `false` for a
nullish `arg` (throwing the garbled type-mismatch message) and otherwise
evaluates `Object(arg) instanceof undefined`, a TypeError. -/
def validateStep (name : String) (types : List TypeConstraint) (values : List Arg)
    (iOpt : Option Nat) (v : JVal) : Except JSError Unit :=
  match iOpt with
  | some i =>
    match types[i]? with
    | some (.tvar t) => checkSiblings name types t i v 0 values
    | some .accessible =>
        if isNullish v then .error (.accessibleNull i name) else .ok ()
    | some .typeRep =>
        if _is .cFunction v then .ok ()
        else .error (.typeMismatch name (some .typeRep) (some i) v)
    | some (.ctor C) =>
        if _is C v then .ok ()
        else .error (.typeMismatch name (some (.ctor C)) (some i) v)
    | none =>
        if isNullish v then .error (.typeMismatch name none (some i) v)
        else .error .instanceOfBadRHS
  | none =>
      if isNullish v then .error (.typeMismatch name none none v)
      else .error .instanceOfBadRHS

/-- One iteration of the argument loop for a concrete argument: validate,
then `values = R.update(paramIndex, arg, values)` (which copies the array;
with an `undefined` index the update is unreachable because validation has
already thrown). -/
def applyArg (name : String) (types : List TypeConstraint) (values : List Arg)
    (iOpt : Option Nat) (v : JVal) : Except JSError (List Arg) :=
  match validateStep name types values iOpt v with
  | .error e => .error e
  | .ok () =>
    .ok (match iOpt with
         | some i => values.set i (.val v)
         | none => values)

/-- The argument loop (src/index.js 161-196): each argument — placeholder
or concrete — consumes one entry of `paramIndexes`; placeholders are
skipped, concrete values are validated and written. -/
def processArgs (name : String) (types : List TypeConstraint) :
    List Arg → List Nat → List Arg → Except JSError (List Arg)
  | values, _, [] => .ok values
  | values, pis, .ph :: rest => processArgs name types values pis.tail rest
  | values, pis, .val v :: rest =>
    match applyArg name types values pis.head? v with
    | .error e => .error e
    | .ok values' => processArgs name types values' pis.tail rest

/-- The outcome of one successful application: either a new partially
applied function or the value returned by the saturated implementation. -/
inductive Outcome where
  | curried (g : CurriedFn)
  | finished (v : JVal)
  deriving Repr

/-- One invocation of the wrapper `curry` returns (src/index.js 148-201):
recompute `paramIndexes` from the pending snapshot, run the argument loop,
then either invoke the implementation (all slots filled) or build a fresh
`CurriedFn` carrying the updated snapshot. `impl` models the wrapped `f`
and may itself throw. -/
def applyS (impl : List JVal → Except JSError JVal) (g : CurriedFn)
    (args : List Arg) : Except JSError Outcome :=
  match processArgs g.name g.types g.pending (unfilledIndexes g.pending) args with
  | .error e => .error e
  | .ok values =>
    if (concreteVals values).length = values.length then
      match impl (concreteVals values) with
      | .error e => .error e
      | .ok r => .ok (.finished r)
    else .ok (.curried ⟨g.name, g.types, values⟩)

/-- Applying a list of concrete values. -/
def applyVals (impl : List JVal → Except JSError JVal) (g : CurriedFn)
    (vs : List JVal) : Except JSError Outcome :=
  applyS impl g (vs.map .val)

/-- State-passing view of one invocation: the result together with the
receiver as it stands after the call. The closure's captured `_values` is
read once into the local `values` (line 149) and never assigned again —
every update rebinds the local to the fresh array `R.update` returns — so
the receiver after the call is the receiver before it. -/
def applyWithReceiver (impl : List JVal → Except JSError JVal) (g : CurriedFn)
    (args : List Arg) : Except JSError Outcome × CurriedFn :=
  (applyS impl g args, g)

/-- Two independent applications of the same partially applied function,
evaluated sequentially: the second call is made on the receiver as the
first call left it. -/
def branchEval (impl : List JVal → Except JSError JVal) (g : CurriedFn)
    (ys zs : List Arg) : Except JSError Outcome × Except JSError Outcome :=
  let p₁ := applyWithReceiver impl g ys
  let p₂ := applyWithReceiver impl p₁.2 zs
  (p₁.1, p₂.1)

/-- A sequence of grouped calls `f(as₁)(as₂)...`: each partial result is
called with the next group; calling the final (non-function) result of a
saturated application is the usual TypeError. -/
def applyGroups (impl : List JVal → Except JSError JVal) :
    CurriedFn → List (List Arg) → Except JSError Outcome
  | g, [] => .ok (.curried g)
  | g, as :: rest =>
    match applyS impl g as with
    | .error e => .error e
    | .ok (.finished v) => if rest.isEmpty then .ok (.finished v) else .error .notAFunction
    | .ok (.curried g') => applyGroups impl g' rest

/-- The wrapper returned by `arity` (src/index.js 137-144): a function of
the given formal parameter count (its reported `length`) forwarding all
arguments to the curry body. -/
structure Wrapper where
  length : Nat
  fn : CurriedFn
  deriving Repr

/-- `arity` (src/index.js 137-144): the switch has cases only for 0-3; any
other count falls through and the function returns `undefined`. -/
def arity (n : Nat) (g : CurriedFn) : Option Wrapper :=
  match n with
  | 0 => some ⟨0, g⟩
  | 1 => some ⟨1, g⟩
  | 2 => some ⟨2, g⟩
  | 3 => some ⟨3, g⟩
  | _ => none

/-- `curry` (src/index.js 146-202): wraps the application body in
`arity(R.filter(placeholder, _values).length, ...)`. -/
def curry (name : String) (types : List TypeConstraint) (values : List Arg) :
    Option Wrapper :=
  arity (countPh values) ⟨name, types, values⟩

/-- `def` (src/index.js 204-206): `curry` with every slot initially the
placeholder. -/
def defFn (name : String) (types : List TypeConstraint) : Option Wrapper :=
  curry name types (types.map fun _ => .ph)

/-- The pending snapshot `def` starts from. -/
def def0 (name : String) (types : List TypeConstraint) : CurriedFn :=
  ⟨name, types, types.map fun _ => .ph⟩

/-! ### Library functions named by the claims -/

/-- `_is` as the wrapped implementation of `S.is` (src/index.js 258): the
first argument is the type-representative value itself. A constructor
function dispatches through `_is`; a plain function is a legal
`instanceof` right-hand side matching none of the embedded values; any
non-function right-hand side would make `instanceof` throw (unreachable
through `S.is`, whose first parameter is checked against `TypeRep`). -/
def _isImpl : List JVal → Except JSError JVal
  | [.vctor C, x] => .ok (.vbool (_is C x))
  | [.vfn _, x] => .ok (.vbool (!(isNullish x) && false))
  | _ => .error .instanceOfBadRHS

/-- `S.is` is built by `def` from name `'is'`, constraints `[TypeRep, a]` and implementation `_is` (src/index.js 258). -/
def isCurried : CurriedFn := def0 "is" [.typeRep, .tvar .a]

/-- `S.K` is built by `def` from name `'K'`, constraints `[a, b]` and the
implementation returning its first argument (src/index.js 274-276). -/
def kImpl : List JVal → Except JSError JVal
  | x :: _ => .ok x
  | [] => .ok .vundefined

/-- The curried state of `S.K`. -/
def kCurried : CurriedFn := def0 "K" [.tvar .a, .tvar .b]

/-- `toBoolean` (src/index.js 979-985): arrays answer by non-emptiness,
Booleans by themselves; otherwise the value's own `toBoolean` method is
probed (reading a property of a nullish value throws) — the library's
Maybe/Either instances provide one — and any other value raises the
method-missing TypeError. -/
def toBoolean : JVal → Except JSError Bool
  | .varr xs => .ok (decide (0 < xs.length))
  | .vbool b => .ok b
  | .vnull => .error (.propertyOfNullish "toBoolean")
  | .vundefined => .error (.propertyOfNullish "toBoolean")
  | .just _ => .ok true
  | .nothing => .ok false
  | .left _ => .ok false
  | .right _ => .ok true
  | x => .error (.methodMissing x "a" "toBoolean")

/-- The implementation of `S.and` (src/index.js 1010-1012):
`toBoolean(x) ? y : x`. -/
def andImpl : List JVal → Except JSError JVal
  | [x, y] =>
    (match toBoolean x with
     | .error e => .error e
     | .ok b => .ok (if b then y else x))
  | _ => .error .notAFunction

/-- `S.and` is built by `def` from name `'and'` and constraints `[a, a]`:
both parameters share the type-variable `a`. -/
def andCurried : CurriedFn := def0 "and" [.tvar .a, .tvar .a]

/-! ### Bookkeeping lemmas about the slot lists -/

theorem unfilledIndexesAux_ge (vs : List Arg) : ∀ (k j : Nat),
    j ∈ unfilledIndexesAux k vs → k ≤ j := by
  induction vs with
  | nil => intro k j h; simp [unfilledIndexesAux] at h
  | cons a rest ih =>
    intro k j h
    cases a with
    | ph =>
      simp only [unfilledIndexesAux, List.mem_cons] at h
      rcases h with rfl | h
      · exact Nat.le_refl _
      · exact Nat.le_of_succ_le (ih (k + 1) j h)
    | val v =>
      simp only [unfilledIndexesAux] at h
      exact Nat.le_of_succ_le (ih (k + 1) j h)

theorem unfilledIndexesAux_set (v : JVal) : ∀ (vs : List Arg) (k i : Nat) (rest : List Nat),
    unfilledIndexesAux k vs = i :: rest →
    unfilledIndexesAux k (vs.set (i - k) (.val v)) = rest := by
  intro vs
  induction vs with
  | nil => intro k i rest h; simp [unfilledIndexesAux] at h
  | cons a tail ih =>
    intro k i rest h
    cases a with
    | ph =>
      simp only [unfilledIndexesAux, List.cons.injEq] at h
      obtain ⟨rfl, rfl⟩ := h
      simp [unfilledIndexesAux]
    | val w =>
      simp only [unfilledIndexesAux] at h
      have hk : k + 1 ≤ i := by
        have : i ∈ unfilledIndexesAux (k + 1) tail := by rw [h]; exact List.mem_cons_self _ _
        exact unfilledIndexesAux_ge tail (k + 1) i this
      have hik : i - k = (i - (k + 1)) + 1 := by omega
      rw [hik]
      simp only [List.set_cons_succ, unfilledIndexesAux]
      exact ih (k + 1) i rest h

theorem unfilledIndexes_set (v : JVal) (vs : List Arg) (i : Nat) (rest : List Nat)
    (h : unfilledIndexes vs = i :: rest) :
    unfilledIndexes (vs.set i (.val v)) = rest := by
  have := unfilledIndexesAux_set v vs 0 i rest h
  simpa [unfilledIndexes] using this

theorem unfilledIndexesAux_length (vs : List Arg) : ∀ (k : Nat),
    (unfilledIndexesAux k vs).length = countPh vs := by
  induction vs with
  | nil => intro k; simp [unfilledIndexesAux, countPh]
  | cons a tail ih =>
    intro k
    cases a with
    | ph => simp [unfilledIndexesAux, countPh, List.filter, isPlaceholder, ih]
    | val w => simp [unfilledIndexesAux, countPh, List.filter, isPlaceholder, ih (k + 1)]

theorem unfilledIndexes_length (vs : List Arg) :
    (unfilledIndexes vs).length = countPh vs :=
  unfilledIndexesAux_length vs 0

theorem concreteVals_length_add (vs : List Arg) :
    (concreteVals vs).length + countPh vs = vs.length := by
  induction vs with
  | nil => simp [concreteVals, countPh]
  | cons a tail ih =>
    cases a with
    | ph => simp [concreteVals, countPh, List.filter, isPlaceholder] at ih ⊢; omega
    | val v => simp [concreteVals, countPh, List.filter, isPlaceholder] at ih ⊢; omega

/-- The saturation test `R.reject(placeholder, values).length === values.length`
holds exactly when no slot is unfilled. -/
theorem saturated_iff (vs : List Arg) :
    (concreteVals vs).length = vs.length ↔ countPh vs = 0 := by
  have := concreteVals_length_add vs
  omega

theorem countPh_def0 (types : List TypeConstraint) :
    countPh (types.map fun _ => Arg.ph) = types.length := by
  induction types with
  | nil => rfl
  | cons t rest ih =>
    simp only [List.map_cons, countPh] at ih ⊢
    rw [List.filter_cons_of_pos (by rfl), List.length_cons, ih]
    exact (List.length_cons t rest).symm

theorem drop_tail_eq {α : Type} (pis : List α) (n : Nat) :
    pis.tail.drop n = pis.drop (n + 1) := by
  rw [← List.drop_one, List.drop_drop, Nat.add_comm 1 n]

/-- Splitting the argument loop, error case: an error raised while
processing `as` is the result of processing `as ++ bs` too. -/
theorem processArgs_append_err (name : String) (types : List TypeConstraint) :
    ∀ (as bs : List Arg) (values : List Arg) (pis : List Nat) (e : JSError),
    processArgs name types values pis as = .error e →
    processArgs name types values pis (as ++ bs) = .error e := by
  intro as
  induction as with
  | nil => intro bs values pis e h; simp [processArgs] at h
  | cons a rest ih =>
    intro bs values pis e h
    cases a with
    | ph =>
      simp only [processArgs] at h
      simp only [List.cons_append, List.append_eq, processArgs]
      exact ih bs values pis.tail e h
    | val v =>
      simp only [processArgs] at h
      simp only [List.cons_append, List.append_eq, processArgs]
      cases hva : applyArg name types values pis.head? v with
      | error e' => rw [hva] at h; simpa using h
      | ok values' =>
        rw [hva] at h
        exact ih bs values' pis.tail e h

/-- Splitting the argument loop, success case: after `as` succeeds, the
remaining arguments continue with the unconsumed tail of `paramIndexes`. -/
theorem processArgs_append_ok (name : String) (types : List TypeConstraint) :
    ∀ (as bs : List Arg) (values values₁ : List Arg) (pis : List Nat),
    processArgs name types values pis as = .ok values₁ →
    processArgs name types values pis (as ++ bs) =
      processArgs name types values₁ (pis.drop as.length) bs := by
  intro as
  induction as with
  | nil =>
    intro bs values values₁ pis h
    simp only [processArgs] at h
    simp only [List.nil_append, List.length_nil, List.drop_zero]
    rw [(by simpa using h : values = values₁)]
  | cons a rest ih =>
    intro bs values values₁ pis h
    cases a with
    | ph =>
      simp only [processArgs] at h
      simp only [List.cons_append, List.append_eq, processArgs]
      rw [ih bs values values₁ pis.tail h, drop_tail_eq, List.length_cons]
    | val v =>
      simp only [processArgs] at h
      simp only [List.cons_append, List.append_eq, processArgs]
      cases hva : applyArg name types values pis.head? v with
      | error e' => rw [hva] at h; simp at h
      | ok values' =>
        rw [hva] at h
        have h' : processArgs name types values' pis.tail rest = .ok values₁ := h
        show processArgs name types values' pis.tail (rest ++ bs) =
          processArgs name types values₁ (pis.drop (Arg.val v :: rest).length) bs
        rw [ih bs values' values₁ pis.tail h', drop_tail_eq, List.length_cons]

/-- With an exhausted `paramIndexes` a concrete argument never validates:
`types[undefined]` is `undefined` and both `_is(undefined, arg)` outcomes
throw. -/
theorem validateStep_none (name : String) (types : List TypeConstraint)
    (values : List Arg) (v : JVal) :
    ∃ e, validateStep name types values none v = .error e := by
  unfold validateStep
  by_cases h : isNullish v <;> simp [h]

/-- A successful run of the loop on concrete arguments consumes exactly one
unfilled index per argument: afterwards the unfilled indexes are the
untouched tail. -/
theorem processArgs_unfilled (name : String) (types : List TypeConstraint) :
    ∀ (vs : List JVal) (values values' : List Arg),
    processArgs name types values (unfilledIndexes values) (vs.map .val) = .ok values' →
    unfilledIndexes values' = (unfilledIndexes values).drop vs.length := by
  intro vs
  induction vs with
  | nil => intro values values' h; simp [processArgs] at h; simp [h]
  | cons v rest ih =>
    intro values values' h
    simp only [List.map_cons, processArgs] at h
    cases hpis : unfilledIndexes values with
    | nil =>
      rw [hpis] at h
      obtain ⟨e, he⟩ := validateStep_none name types values v
      simp [applyArg, he] at h
    | cons i pis' =>
      rw [hpis] at h
      simp only [List.head?_cons, List.tail_cons] at h
      cases hva : applyArg name types values (some i) v with
      | error e => rw [hva] at h; exact absurd h (by simp)
      | ok values₁ =>
        rw [hva] at h
        have hset : values₁ = values.set i (.val v) := by
          unfold applyArg at hva
          cases hv : validateStep name types values (some i) v with
          | error e => rw [hv] at hva; exact absurd hva (by simp)
          | ok u => rw [hv] at hva; simpa using hva.symm
        have hunf : unfilledIndexes values₁ = pis' := by
          rw [hset]; exact unfilledIndexes_set v values i pis' hpis
        have hrec := ih values₁ values' (by rw [hunf]; exact h)
        rw [hunf] at hrec
        rw [hrec]
        simp

/-- Splitting one call into two: if processing `as` succeeds with snapshot
`values₁`, then one call on `as ++ bs` behaves exactly as a call on `bs`
made to the partial function carrying `values₁`. -/
theorem applyVals_split (impl : List JVal → Except JSError JVal) (g : CurriedFn)
    (as bs : List JVal) (values₁ : List Arg)
    (h : processArgs g.name g.types g.pending (unfilledIndexes g.pending)
          (as.map Arg.val) = .ok values₁) :
    applyVals impl g (as ++ bs) = applyVals impl ⟨g.name, g.types, values₁⟩ bs := by
  unfold applyVals applyS
  rw [List.map_append]
  rw [processArgs_append_ok g.name g.types (as.map Arg.val) (bs.map Arg.val)
        g.pending values₁ (unfilledIndexes g.pending) h]
  have hunf := processArgs_unfilled g.name g.types as g.pending values₁ h
  rw [List.length_map, ← hunf]

/-- Shape of a successful `arity` call: the wrapper reports the requested
length and wraps the given state; only counts up to three succeed. -/
theorem arity_some (n : Nat) (g : CurriedFn) (w : Wrapper)
    (h : arity n g = some w) : w = ⟨n, g⟩ ∧ n ≤ 3 := by
  match n, h with
  | 0, h => exact ⟨(Option.some.inj h).symm, by omega⟩
  | 1, h => exact ⟨(Option.some.inj h).symm, by omega⟩
  | 2, h => exact ⟨(Option.some.inj h).symm, by omega⟩
  | 3, h => exact ⟨(Option.some.inj h).symm, by omega⟩
  | n + 4, h => exact Option.noConfusion h

/-- Shape of a successful `def`: the wrapper reports the constraint count
and starts from the all-placeholder snapshot. -/
theorem defFn_some (name : String) (types : List TypeConstraint) (w : Wrapper)
    (h : defFn name types = some w) :
    w = ⟨types.length, def0 name types⟩ ∧ types.length ≤ 3 := by
  unfold defFn curry at h
  rw [countPh_def0] at h
  exact arity_some types.length _ w h

/-- Grouped calls collapse to one call: for nonempty groups of concrete
values totalling at most the number of unfilled slots, the chain of calls
and the single call agree (on results and on errors alike). -/
theorem applyGroups_join (impl : List JVal → Except JSError JVal) :
    ∀ (gs : List (List JVal)) (g : CurriedFn),
    (∀ gr ∈ gs, gr ≠ []) → gs ≠ [] → gs.flatten.length ≤ countPh g.pending →
    applyGroups impl g (gs.map fun gr => gr.map Arg.val) =
      applyVals impl g gs.flatten := by
  intro gs
  induction gs with
  | nil => intro g _ hne _; exact absurd rfl hne
  | cons gr rest ih =>
    intro g hgr _ hlen
    cases rest with
    | nil =>
      simp only [List.map_cons, List.map_nil, applyGroups, List.flatten_cons,
        List.flatten_nil, List.append_nil]
      cases hres : applyS impl g (gr.map Arg.val) with
      | error e => simp [applyVals, hres]
      | ok o =>
        cases o with
        | finished v => simp [applyVals, hres, applyGroups]
        | curried g' => simp [applyVals, hres, applyGroups]
    | cons r rs =>
      have hgrjoin : (gr :: r :: rs).flatten = gr ++ (r :: rs).flatten := by
        simp [List.flatten_cons]
      have hrne : r ≠ [] := hgr r (by simp)
      have hrlen : 1 ≤ ((r :: rs).flatten).length := by
        have : 0 < r.length := List.length_pos.mpr hrne
        simp only [List.flatten_cons, List.length_append]
        omega
      have hlt : gr.length < countPh g.pending := by
        rw [hgrjoin, List.length_append] at hlen
        omega
      have hpislen : (unfilledIndexes g.pending).length = countPh g.pending :=
        unfilledIndexes_length g.pending
      cases hproc : processArgs g.name g.types g.pending
          (unfilledIndexes g.pending) (gr.map Arg.val) with
      | error e =>
        have h1 : applyS impl g (gr.map Arg.val) = .error e := by
          unfold applyS; rw [hproc]
        have h2 : applyVals impl g ((gr :: r :: rs).flatten) = .error e := by
          unfold applyVals applyS
          rw [hgrjoin, List.map_append,
            processArgs_append_err g.name g.types (gr.map Arg.val)
              (((r :: rs).flatten).map Arg.val) g.pending
              (unfilledIndexes g.pending) e hproc]
        simp only [List.map_cons, applyGroups]
        rw [h1, h2]
      | ok values₁ =>
        have hunf := processArgs_unfilled g.name g.types gr g.pending values₁ hproc
        have hcount : countPh values₁ = countPh g.pending - gr.length := by
          have := unfilledIndexes_length values₁
          rw [hunf, List.length_drop, hpislen] at this
          omega
        have hsat : countPh values₁ ≠ 0 := by omega
        have hcur : applyS impl g (gr.map Arg.val) =
            .ok (.curried ⟨g.name, g.types, values₁⟩) := by
          unfold applyS
          rw [hproc]
          have hne : ¬ ((concreteVals values₁).length = values₁.length) := by
            rw [saturated_iff]; exact hsat
          simp [hne]
        simp only [List.map_cons, applyGroups]
        rw [hcur, hgrjoin,
          applyVals_split impl g gr ((r :: rs).flatten) values₁ hproc]
        exact ih ⟨g.name, g.types, values₁⟩
          (fun x hx => hgr x (List.mem_cons_of_mem gr hx)) (by simp)
          (by rw [hgrjoin, List.length_append] at hlen; simp only [hcount]; omega)

/-! ### Characterisation of the type-variable sibling scan -/

/-- A value classifies as "Null"/"Undefined" exactly when it is nullish. -/
theorem isNullish_iff_rtype (x : JVal) :
    isNullish x = true ↔ (rtype x = "Null" ∨ rtype x = "Undefined") := by
  cases x <;> simp [isNullish, rtype]

theorem isNullish_false_of_rtype_eq {v w : JVal} (hv : isNullish v = false)
    (h : rtype w = rtype v) : isNullish w = false := by
  by_contra hw
  have hw' : isNullish w = true := by
    cases hna : isNullish w
    · exact absurd hna hw
    · rfl
  have h1 := (isNullish_iff_rtype w).mp hw'
  rw [h] at h1
  have h2 := (isNullish_iff_rtype v).mpr h1
  rw [hv] at h2
  exact Bool.noConfusion h2

theorem checkSiblings_cons_skipT (name : String) (types : List TypeConstraint)
    (t : TVarId) (i : Nat) (v : JVal) (k : Nat) (a : Arg) (rest : List Arg)
    (h : ¬ (types[k]? = some (.tvar t))) :
    checkSiblings name types t i v k (a :: rest) =
      checkSiblings name types t i v (k + 1) rest := by
  simp only [checkSiblings]
  rw [if_neg h]

theorem checkSiblings_cons_ph (name : String) (types : List TypeConstraint)
    (t : TVarId) (i : Nat) (v : JVal) (k : Nat) (rest : List Arg)
    (h : types[k]? = some (.tvar t)) :
    checkSiblings name types t i v k (.ph :: rest) =
      checkSiblings name types t i v (k + 1) rest := by
  simp only [checkSiblings]
  rw [if_pos h]

theorem checkSiblings_cons_match (name : String) (types : List TypeConstraint)
    (t : TVarId) (i : Nat) (v wv : JVal) (k : Nat) (rest : List Arg)
    (htk : types[k]? = some (.tvar t)) (hrt : rtype wv = rtype v)
    (hwv : isNullish wv = false) (hv : isNullish v = false)
    (htt : typeTag wv = typeTag v) :
    checkSiblings name types t i v k (.val wv :: rest) =
      checkSiblings name types t i v (k + 1) rest := by
  simp only [checkSiblings]
  rw [if_pos htk]
  simp [getTypeProp, hwv, hv, hrt, htt]

theorem checkSiblings_cons_rtNe (name : String) (types : List TypeConstraint)
    (t : TVarId) (i : Nat) (v wv : JVal) (k : Nat) (rest : List Arg)
    (htk : types[k]? = some (.tvar t)) (hrt : ¬ (rtype wv = rtype v)) :
    checkSiblings name types t i v k (.val wv :: rest) =
      .error (tvarError name i k wv v) := by
  simp only [checkSiblings]
  rw [if_pos htk]
  simp [hrt]

theorem checkSiblings_cons_ttNe (name : String) (types : List TypeConstraint)
    (t : TVarId) (i : Nat) (v wv : JVal) (k : Nat) (rest : List Arg)
    (htk : types[k]? = some (.tvar t)) (hrt : rtype wv = rtype v)
    (hwv : isNullish wv = false) (hv : isNullish v = false)
    (htt : ¬ (typeTag wv = typeTag v)) :
    checkSiblings name types t i v k (.val wv :: rest) =
      .error (tvarError name i k wv v) := by
  simp only [checkSiblings]
  rw [if_pos htk]
  simp [getTypeProp, hwv, hv, hrt, htt]

/-- The sibling scan succeeds iff every concrete value in a slot sharing
the same type-variable object agrees with the new value in runtime
classification and in `type` tag. (`k` is the index of the first scanned
slot; the new value is assumed non-nullish, which also keeps the `.type`
reads of classification-equal siblings from throwing.) -/
theorem checkSiblings_ok_iff (name : String) (types : List TypeConstraint)
    (t : TVarId) (i : Nat) (v : JVal) (hv : isNullish v = false) :
    ∀ (s : List Arg) (k : Nat),
    (checkSiblings name types t i v k s = .ok () ↔
      ∀ d w, s[d]? = some (.val w) → types[k + d]? = some (.tvar t) →
        rtype w = rtype v ∧ typeTag w = typeTag v) := by
  intro s
  induction s with
  | nil => intro k; simp [checkSiblings]
  | cons a rest ih =>
    intro k
    by_cases htk : types[k]? = some (.tvar t)
    · cases a with
      | ph =>
        rw [checkSiblings_cons_ph name types t i v k rest htk, ih (k + 1)]
        constructor
        · intro h d w hd htd
          cases d with
          | zero => simp at hd
          | succ d' =>
            rw [show k + (d' + 1) = (k + 1) + d' by omega] at htd
            exact h d' w (by simpa using hd) htd
        · intro h d w hd htd
          rw [show (k + 1) + d = k + (d + 1) by omega] at htd
          exact h (d + 1) w (by simpa using hd) htd
      | val wv =>
        by_cases hrt : rtype wv = rtype v
        · have hwnn : isNullish wv = false := isNullish_false_of_rtype_eq hv hrt
          by_cases htt : typeTag wv = typeTag v
          · rw [checkSiblings_cons_match name types t i v wv k rest htk hrt hwnn hv htt,
              ih (k + 1)]
            constructor
            · intro h d w hd htd
              cases d with
              | zero =>
                simp at hd
                exact hd ▸ ⟨hrt, htt⟩
              | succ d' =>
                rw [show k + (d' + 1) = (k + 1) + d' by omega] at htd
                exact h d' w (by simpa using hd) htd
            · intro h d w hd htd
              rw [show (k + 1) + d = k + (d + 1) by omega] at htd
              exact h (d + 1) w (by simpa using hd) htd
          · rw [checkSiblings_cons_ttNe name types t i v wv k rest htk hrt hwnn hv htt]
            constructor
            · intro h; exact absurd h (by simp)
            · intro h
              have := h 0 wv (by simp) (by simpa using htk)
              exact absurd this.2 htt
        · rw [checkSiblings_cons_rtNe name types t i v wv k rest htk hrt]
          constructor
          · intro h; exact absurd h (by simp)
          · intro h
            have := h 0 wv (by simp) (by simpa using htk)
            exact absurd this.1 hrt
    · rw [checkSiblings_cons_skipT name types t i v k a rest htk, ih (k + 1)]
      constructor
      · intro h d w hd htd
        cases d with
        | zero =>
          rw [Nat.add_zero] at htd
          exact absurd htd htk
        | succ d' =>
          rw [show k + (d' + 1) = (k + 1) + d' by omega] at htd
          exact h d' w (by simpa using hd) htd
      · intro h d w hd htd
        rw [show (k + 1) + d = k + (d + 1) by omega] at htd
        exact h (d + 1) w (by simpa using hd) htd

/-- If the sibling scan throws (the new value being non-nullish), the error
is the same-type error for some disagreeing concrete sibling, carrying both
values. -/
theorem checkSiblings_error (name : String) (types : List TypeConstraint)
    (t : TVarId) (i : Nat) (v : JVal) (hv : isNullish v = false) :
    ∀ (s : List Arg) (k : Nat) (e : JSError),
    checkSiblings name types t i v k s = .error e →
    ∃ d w, s[d]? = some (.val w) ∧ types[k + d]? = some (.tvar t) ∧
      ¬(rtype w = rtype v ∧ typeTag w = typeTag v) ∧
      e = tvarError name i (k + d) w v := by
  intro s
  induction s with
  | nil => intro k e h; simp [checkSiblings] at h
  | cons a rest ih =>
    intro k e h
    by_cases htk : types[k]? = some (.tvar t)
    · cases a with
      | ph =>
        rw [checkSiblings_cons_ph name types t i v k rest htk] at h
        obtain ⟨d, w, hd, htd, hne, he⟩ := ih (k + 1) e h
        refine ⟨d + 1, w, by simpa using hd, ?_, hne, ?_⟩
        · rw [show k + (d + 1) = (k + 1) + d by omega]; exact htd
        · rw [show k + (d + 1) = (k + 1) + d by omega]; exact he
      | val wv =>
        by_cases hrt : rtype wv = rtype v
        · have hwnn : isNullish wv = false := isNullish_false_of_rtype_eq hv hrt
          by_cases htt : typeTag wv = typeTag v
          · rw [checkSiblings_cons_match name types t i v wv k rest htk hrt hwnn hv htt] at h
            obtain ⟨d, w, hd, htd, hne, he⟩ := ih (k + 1) e h
            refine ⟨d + 1, w, by simpa using hd, ?_, hne, ?_⟩
            · rw [show k + (d + 1) = (k + 1) + d by omega]; exact htd
            · rw [show k + (d + 1) = (k + 1) + d by omega]; exact he
          · rw [checkSiblings_cons_ttNe name types t i v wv k rest htk hrt hwnn hv htt] at h
            refine ⟨0, wv, by simp, by simpa using htk, ?_, ?_⟩
            · intro hc; exact htt hc.2
            · rw [Nat.add_zero]
              exact (Except.error.inj h).symm
        · rw [checkSiblings_cons_rtNe name types t i v wv k rest htk hrt] at h
          refine ⟨0, wv, by simp, by simpa using htk, ?_, ?_⟩
          · intro hc; exact hrt hc.1
          · rw [Nat.add_zero]
            exact (Except.error.inj h).symm
    · rw [checkSiblings_cons_skipT name types t i v k a rest htk] at h
      obtain ⟨d, w, hd, htd, hne, he⟩ := ih (k + 1) e h
      refine ⟨d + 1, w, by simpa using hd, ?_, hne, ?_⟩
      · rw [show k + (d + 1) = (k + 1) + d by omega]; exact htd
      · rw [show k + (d + 1) = (k + 1) + d by omega]; exact he

theorem arity_none (n : Nat) (g : CurriedFn) (h : 3 < n) : arity n g = none := by
  rcases n with _|_|_|_|m
  · omega
  · omega
  · omega
  · omega
  · rfl

/-! ### The claims -/

/-- C1: Applying arguments to a curried function never mutates the
receiver. The closure state `_values` is only read (line 149); every
update rebinds the local `values` to the fresh array `R.update` returns,
so a call leaves the receiver's pending snapshot unchanged, and evaluating
`g(ys)` and `g(zs)` sequentially — in either order, the second call made
on the receiver as the first left it — yields exactly the two standalone
results: no slot filled by one branch is visible to the other, and a
partial result is a fresh instance rather than the mutated receiver. -/
theorem curry_application_immutable (impl : List JVal → Except JSError JVal)
    (g : CurriedFn) (ys zs : List Arg) :
    (applyWithReceiver impl g ys).2 = g ∧
    branchEval impl g ys zs = (applyS impl g ys, applyS impl g zs) ∧
    branchEval impl g zs ys = (applyS impl g zs, applyS impl g ys) :=
  ⟨rfl, rfl, rfl⟩

/-- C2: Partial application is associative: for a function built by `def`
over `types` (hence with at most three parameters) and any way of
splitting a full complement of concrete arguments into successive
nonempty grouped calls, the chained calls agree with the single full call
— same final value, or the same error. -/
theorem def_partial_application_assoc (impl : List JVal → Except JSError JVal)
    (name : String) (types : List TypeConstraint) (w : Wrapper)
    (gs : List (List JVal)) (hdef : defFn name types = some w)
    (hne : ∀ gr ∈ gs, gr ≠ []) (hgs : gs ≠ [])
    (hlen : gs.flatten.length = types.length) :
    applyGroups impl w.fn (gs.map fun gr => gr.map Arg.val) =
      applyVals impl w.fn gs.flatten := by
  obtain ⟨hw, hle⟩ := defFn_some name types w hdef
  apply applyGroups_join impl gs w.fn hne hgs
  rw [hw]
  show gs.flatten.length ≤ countPh (types.map fun _ => Arg.ph)
  rw [countPh_def0]
  exact Nat.le_of_eq hlen

theorem def_partial_application_assoc_witness :
    applyGroups kImpl kCurried [[Arg.val (.vnum 1)], [Arg.val (.vnum 2)]] =
      applyVals kImpl kCurried [.vnum 1, .vnum 2] :=
  def_partial_application_assoc kImpl "K" [.tvar .a, .tvar .b] ⟨2, kCurried⟩
    [[.vnum 1], [.vnum 2]] rfl (by simp) (by simp) rfl

/-- C3: Validation is fail-fast and left-to-right: within one call, each
concrete argument is checked in order against its target slot; as soon as
one argument fails, its error — which carries that argument's parameter
position — is the result of the whole call, whatever arguments follow it
(they are never examined). -/
theorem curry_fail_fast (impl : List JVal → Except JSError JVal)
    (name : String) (types : List TypeConstraint) (values values₁ : List Arg)
    (vsPre : List JVal) (v : JVal) (e : JSError) (rest : List Arg)
    (h1 : processArgs name types values (unfilledIndexes values)
            (vsPre.map Arg.val) = .ok values₁)
    (h2 : validateStep name types values₁
            (((unfilledIndexes values).drop vsPre.length).head?) v = .error e) :
    applyS impl ⟨name, types, values⟩
      ((vsPre.map Arg.val) ++ Arg.val v :: rest) = .error e := by
  unfold applyS
  rw [processArgs_append_ok name types (vsPre.map Arg.val) (Arg.val v :: rest)
        values values₁ (unfilledIndexes values) h1, List.length_map]
  simp only [processArgs, applyArg, h2]

theorem curry_fail_fast_witness :
    applyS kImpl ⟨"f", [.ctor .cNumber, .ctor .cNumber], [.ph, .ph]⟩
        ([Arg.val (.vnum 1)] ++ Arg.val (.vstr "x") :: []) =
      .error (.typeMismatch "f" (some (.ctor .cNumber)) (some 1) (.vstr "x")) :=
  curry_fail_fast kImpl "f" [.ctor .cNumber, .ctor .cNumber] [.ph, .ph]
    [.val (.vnum 1), .ph] [.vnum 1] (.vstr "x")
    (.typeMismatch "f" (some (.ctor .cNumber)) (some 1) (.vstr "x")) []
    rfl rfl

/-- C4: For a slot constrained by a type variable, supplying a new
concrete (non-nullish) value succeeds exactly when every concrete value
already held by a slot carrying the literal same type-variable object
agrees with it in runtime classification and internal `type` tag; and any
error the step throws is the distinctly-worded same-type error for such a
disagreeing sibling, listing both values. (Two arrays therefore unify
while an array and a boolean do not.) -/
theorem tvar_unification (name : String) (types : List TypeConstraint)
    (values : List Arg) (i : Nat) (t : TVarId) (v : JVal)
    (ht : types[i]? = some (.tvar t)) (hv : isNullish v = false) :
    (validateStep name types values (some i) v = .ok () ↔
      ∀ (j : Nat) (w : JVal), values[j]? = some (.val w) →
        types[j]? = some (.tvar t) →
        rtype w = rtype v ∧ typeTag w = typeTag v) ∧
    (∀ e, validateStep name types values (some i) v = .error e →
      ∃ (j : Nat) (w : JVal), values[j]? = some (.val w) ∧
        types[j]? = some (.tvar t) ∧
        ¬(rtype w = rtype v ∧ typeTag w = typeTag v) ∧
        e = tvarError name i j w v) := by
  have hred : validateStep name types values (some i) v =
      checkSiblings name types t i v 0 values := by
    simp only [validateStep, ht]
  constructor
  · rw [hred, checkSiblings_ok_iff name types t i v hv values 0]
    simp only [Nat.zero_add]
  · intro e he
    rw [hred] at he
    obtain ⟨d, w, hd, htd, hne, hee⟩ :=
      checkSiblings_error name types t i v hv values 0 e he
    rw [Nat.zero_add] at htd hee
    exact ⟨d, w, hd, htd, hne, hee⟩

theorem tvar_unification_witness :
    (validateStep "and" [.tvar .a, .tvar .a] [.val (.varr []), .ph]
        (some 1) (.vbool false) = .ok () ↔
      ∀ (j : Nat) (w : JVal),
        [Arg.val (.varr []), Arg.ph][j]? = some (.val w) →
        [TypeConstraint.tvar .a, TypeConstraint.tvar .a][j]? =
          some (.tvar .a) →
        rtype w = rtype (.vbool false) ∧ typeTag w = typeTag (.vbool false)) ∧
    (∀ e, validateStep "and" [.tvar .a, .tvar .a] [.val (.varr []), .ph]
        (some 1) (.vbool false) = .error e →
      ∃ (j : Nat) (w : JVal),
        [Arg.val (.varr []), Arg.ph][j]? = some (.val w) ∧
        [TypeConstraint.tvar .a, TypeConstraint.tvar .a][j]? =
          some (.tvar .a) ∧
        ¬(rtype w = rtype (.vbool false) ∧ typeTag w = typeTag (.vbool false)) ∧
        e = tvarError "and" 1 j w (.vbool false)) :=
  tvar_unification "and" [.tvar .a, .tvar .a] [.val (.varr []), .ph]
    1 .a (.vbool false) rfl rfl

/-- C5: The claimed over-application arity error does not exist in
src/index.js: `curry` has no arity check, so the third argument of
`K(1, 2, 3)` is matched against `types[undefined]`, and
`Object(3) instanceof undefined` throws the raw TypeError about the
right-hand side of `instanceof` — not the worded message
"‘K’ requires two arguments; received three arguments" that the
repository's own test suite (src/test/index.js 72-97) demands. -/
theorem over_application_raw_typeerror :
    applyVals kImpl kCurried [.vnum 1, .vnum 2, .vnum 3] =
      .error .instanceOfBadRHS ∧
    renderError .instanceOfBadRHS =
      "Right-hand side of instanceof is not callable" :=
  ⟨rfl, rfl⟩

/-- C6: The public `is(type, value)` boxes the value and checks
prototype-chain membership: for every non-nullish value and every
constructor other than the module-internal `Accessible` (which is not
exported and short-circuits `_is`), the fully applied curried `is`
returns the Boolean of `Object(x) instanceof C` — never a thrown error;
in particular `is(Number, 42)` and `is(Object, 42)` are true while
`is(String, 42)` is false. -/
theorem is_boxing_instance (C : Ctor) (x : JVal)
    (hx : isNullish x = false) (hC : C ≠ .cAccessible) :
    applyVals _isImpl isCurried [.vctor C, x] =
      .ok (.finished (.vbool (jsInstanceOfBoxed x C))) ∧
    applyVals _isImpl isCurried [.vctor .cNumber, .vnum 42] =
      .ok (.finished (.vbool true)) ∧
    applyVals _isImpl isCurried [.vctor .cObject, .vnum 42] =
      .ok (.finished (.vbool true)) ∧
    applyVals _isImpl isCurried [.vctor .cString, .vnum 42] =
      .ok (.finished (.vbool false)) := by
  refine ⟨?_, rfl, rfl, rfl⟩
  have h0 : applyVals _isImpl isCurried [.vctor C, x] =
      .ok (.finished (.vbool (_is C x))) := rfl
  rw [h0]
  have h1 : _is C x = jsInstanceOfBoxed x C := by
    unfold _is
    rw [hx, beq_eq_false_iff_ne.mpr hC]
    simp
  rw [h1]

theorem is_boxing_instance_witness :
    applyVals _isImpl isCurried [.vctor .cNumber, .vnum 42] =
      .ok (.finished (.vbool (jsInstanceOfBoxed (.vnum 42) .cNumber))) :=
  (is_boxing_instance .cNumber (.vnum 42) rfl (by decide)).1

/-- C7: An `Accessible` slot accepts every value except the two nullish
sentinels; a nullish value throws the error saying the argument cannot be
null or undefined, naming the argument's ordinal position and the
function's name. -/
theorem accessible_validation (name : String) (types : List TypeConstraint)
    (values : List Arg) (i : Nat) (v : JVal)
    (ht : types[i]? = some .accessible) :
    (isNullish v = true →
      validateStep name types values (some i) v =
        .error (.accessibleNull i name) ∧
      renderError (.accessibleNull i name) =
        "The " ++ fmtOrd i ++ " argument to " ++ quoteS name ++
        " cannot be null or undefined") ∧
    (isNullish v = false →
      validateStep name types values (some i) v = .ok ()) := by
  constructor
  · intro hnull
    constructor
    · simp only [validateStep, ht]
      simp [hnull]
    · rfl
  · intro hnn
    simp only [validateStep, ht]
    simp [hnn]

theorem accessible_validation_witness :
    validateStep "at" [.ctor .cNumber, .accessible] [.val (.vnum 0), .ph]
        (some 1) .vnull = .error (.accessibleNull 1 "at") ∧
    renderError (.accessibleNull 1 "at") =
      "The second argument to ‘at’ cannot be null or undefined" :=
  have h := accessible_validation "at" [.ctor .cNumber, .accessible]
    [.val (.vnum 0), .ph] 1 .vnull rfl
  ⟨(h.1 rfl).1, (h.1 rfl).2⟩

/-- C8: The `and` dispatcher (both parameters sharing type-variable `a`)
returns its first argument when it is "false"-like and its second
otherwise, using array non-emptiness / Boolean identity / a `toBoolean`
method: `and([], [42])` is `[]`, `and([42], [43])` is `[43]`, and
`and([], false)` throws the same-type error citing both values. -/
theorem and_dispatcher_behavior :
    applyVals andImpl andCurried [.varr [], .varr [.vnum 42]] =
      .ok (.finished (.varr [])) ∧
    applyVals andImpl andCurried [.varr [.vnum 42], .varr [.vnum 43]] =
      .ok (.finished (.varr [.vnum 43])) ∧
    applyVals andImpl andCurried [.varr [], .vbool false] =
      .error (.tvarMismatch "and" 0 1 (.varr []) (.vbool false)) ∧
    renderError (.tvarMismatch "and" 0 1 (.varr []) (.vbool false)) =
      "‘and’ requires its first and second arguments to be of the " ++
      "same type; [] and false are not" :=
  ⟨rfl, rfl, rfl, by decide⟩

/-- C9 (counterexample): the `{ord}` formatter is a lookup in
`['first', 'second', 'third']`; at index 3 (the fourth position) `R.nth`
yields `undefined`, so the rendered message reads "its undefined
argument" — not a numeral. -/
theorem ordinal_beyond_three_counterexample :
    fmtOrd 3 = "undefined" ∧
    renderError (.typeMismatch "f" (some (.ctor .cNumber)) (some 3)
        (.vbool true)) =
      "‘f’ requires a value of type Number as its undefined argument; " ++
      "received true" ∧
    ("undefined" : String) ≠ "4" :=
  ⟨rfl, by decide, by decide⟩

/-- C9 (amended): a failed positional type-membership check renders the
violating position through `fmtOrd`: "first"/"second"/"third" for
positions 1-3, and the text "undefined" (no numeral) for every later
position — which can never be reached through `def`, since `def` yields
no callable for more than three constraints. -/
theorem ordinal_rendering (i : Nat) (h3 : 3 ≤ i) :
    fmtOrd 0 = "first" ∧ fmtOrd 1 = "second" ∧ fmtOrd 2 = "third" ∧
    fmtOrd i = "undefined" ∧
    (∀ name C j v,
      renderError (.typeMismatch name (some (.ctor C)) (some j) v) =
        quoteS name ++ " requires a value of type " ++ ctorName C ++
        " as its " ++ fmtOrd j ++ " argument; received " ++ jshow v) ∧
    (∀ name ts, 3 < ts.length → defFn name ts = none) := by
  refine ⟨rfl, rfl, rfl, ?_, fun name C j v => rfl, ?_⟩
  · unfold fmtOrd
    rw [List.getElem?_eq_none (by simpa [ordWords] using h3)]
    rfl
  · intro name ts hlen
    unfold defFn curry
    rw [countPh_def0]
    exact arity_none ts.length _ hlen

theorem ordinal_rendering_witness : fmtOrd 5 = "undefined" :=
  (ordinal_rendering 5 (by omega)).2.2.2.1

/-- C10: The `arity` helper has switch cases only for 0-3: it returns a
wrapper of the requested reported length exactly for those counts and
`undefined` for every larger count, so `def` yields a callable curried
function precisely when the constraint list has at most three entries. -/
theorem arity_zero_to_three (n : Nat) (g : CurriedFn) (name : String)
    (types : List TypeConstraint) :
    (n ≤ 3 → arity n g = some ⟨n, g⟩) ∧
    (3 < n → arity n g = none) ∧
    (types.length ≤ 3 →
      defFn name types = some ⟨types.length, def0 name types⟩) ∧
    (3 < types.length → defFn name types = none) := by
  refine ⟨?_, fun h => arity_none n g h, ?_, ?_⟩
  · intro h
    rcases n with _|_|_|_|m
    · rfl
    · rfl
    · rfl
    · rfl
    · omega
  · intro h
    unfold defFn curry
    rw [countPh_def0]
    have hgoal : ∀ m, m ≤ 3 →
        arity m ⟨name, types, types.map fun _ => Arg.ph⟩ =
          some ⟨m, ⟨name, types, types.map fun _ => Arg.ph⟩⟩ := by
      intro m hm
      rcases m with _|_|_|_|m'
      · rfl
      · rfl
      · rfl
      · rfl
      · omega
    exact hgoal types.length h
  · intro h
    unfold defFn curry
    rw [countPh_def0]
    exact arity_none types.length _ h

theorem arity_zero_to_three_witness :
    arity 2 kCurried = some ⟨2, kCurried⟩ ∧
    defFn "q" [.accessible, .accessible, .accessible, .accessible] = none :=
  ⟨(arity_zero_to_three 2 kCurried "q" []).1 (by omega),
   (arity_zero_to_three 2 kCurried "q"
      [.accessible, .accessible, .accessible, .accessible]).2.2.2 (by decide)⟩

end Sanctuary
